import Mathlib

/-!
Verification development for the backflow-tester crawler pipeline.

Shallow embedding of the relevance scorer, tier assignment, internal-link
ranking (crawler/03_verify_backflow.py) and of the image-enrichment pipeline
(crawler/05_enrich_images.py): heuristic URL filter, image download gate,
vision verdict handling, selection loop, and checkpoint persistence.

Python strings are modelled as Lean `String` (ASCII-faithful: `str.lower`
becomes `String.toLower`, the `in` substring operator becomes `pyIn`).
-/

namespace Backflow

/-- Python substring operator on char lists: `containsSub need hay = true` iff
`need` occurs contiguously inside `hay` (the empty list occurs in every list). -/
def containsSub (need : List Char) : List Char → Bool
  | [] => need.isEmpty
  | c :: t => need.isPrefixOf (c :: t) || containsSub need (t)

/-- Python `need in hay` for strings. -/
def pyIn (need hay : String) : Bool := containsSub need.data hay.data

/-- Python `str.lower()` (ASCII-faithful).  `String.toLower` has the same
value but is defined by well-founded recursion, which the kernel cannot
evaluate; this copy maps `Char.toLower` over the character list directly. -/
def pyLower (s : String) : String := String.mk (s.data.map Char.toLower)

theorem containsSub_iff_occurs (need : List Char) :
    ∀ hay : List Char, containsSub need hay = true ↔ need <:+: hay := by
  intro hay
  induction hay with
  | nil => simp [containsSub, List.isEmpty_iff, List.infix_nil]
  | cons c t ih =>
    simp only [containsSub, Bool.or_eq_true, List.isPrefixOf_iff_prefix, ih]
    exact (List.infix_cons_iff).symm

/-- If `b` occurs in `s` and `a` is an infix of `b`, then `a` occurs in `s`. -/
theorem pyIn_of_subterm {a b s : String} (h : pyIn b s = true)
    (hab : a.data <:+: b.data) : pyIn a s = true := by
  rw [pyIn, containsSub_iff_occurs] at h ⊢
  exact hab.trans h

/-- Contrapositive form: if `a` does not occur in `s` and `a` is an infix of
`b`, then `b` does not occur in `s`. -/
theorem pyIn_false_of_subterm {a b s : String} (hab : a.data <:+: b.data)
    (h : pyIn a s = false) : pyIn b s = false := by
  cases hb : pyIn b s with
  | false => rfl
  | true => rw [pyIn_of_subterm hb hab] at h; cases h

/-! ## Term tables (crawler/03_verify_backflow.py, lines 54-101)

`BACKFLOW_TERMS` is a Python dict (insertion-ordered, distinct keys), modelled
as an association list. `TESTING_TIER_TERMS` is a Python set of strings. -/

def BACKFLOW_TERMS : List (String × Nat) :=
  [("backflow testing", 3),
   ("backflow tester", 3),
   ("backflow test", 3),
   ("backflow inspection", 2),
   ("backflow preventer", 2),
   ("backflow prevention", 2),
   ("backflow installation", 2),
   ("backflow repair", 2),
   ("backflow service", 2),
   ("backflow certification", 2),
   ("backflow certified", 2),
   ("cross connection", 1),
   ("cross-connection", 1),
   ("cross connection control", 2),
   ("rpz", 1),
   ("rpz testing", 2),
   ("reduced pressure zone", 1),
   ("reduced pressure", 1),
   ("dcva", 1),
   ("double check valve", 1),
   ("double-check valve", 1),
   ("pvb", 1),
   ("pressure vacuum breaker", 1),
   ("backflow", 1),
   ("back flow", 1),
   ("irrigation backflow", 2),
   ("sprinkler backflow", 2),
   ("test report", 1),
   ("annual test", 1)]

def TESTING_TIER_TERMS : List String :=
  ["backflow testing", "backflow tester", "backflow test",
   "rpz testing", "backflow inspection", "backflow certification",
   "backflow certified", "annual backflow test", "test report",
   "cross connection control"]

def TIER_TESTING_DEFAULT : Int := 4

def TIER_SERVICE_DEFAULT : Int := 2

/-- `score_text` (crawler/03_verify_backflow.py, lines 200-224): lower-case the
text, accumulate the weight of every term of `BACKFLOW_TERMS` occurring in it as
a substring, cap the score at 10.  The source returns `list(set(matched_terms))`
whose order is unspecified; the model returns the matches in table order (the
keys are distinct, so the underlying set is identical). -/
def score_text (text : String) : Nat × List String :=
  if text = "" then (0, [])
  else
    let text_lower := (pyLower text)
    let acc := BACKFLOW_TERMS.foldl
      (fun (acc : Nat × List String) p =>
        if pyIn p.1 text_lower = true then (acc.1 + p.2, acc.2 ++ [p.1]) else acc)
      (0, [])
    (min 10 acc.1, acc.2)

/-- `assign_tier` (crawler/03_verify_backflow.py, lines 104-120; the identical
copy is at crawler/03_verify_and_enrich.py, lines 210-217). -/
def assign_tier (score : Int) (matched_terms : List String)
    (testing_threshold : Int) : String :=
  let has_testing_term := matched_terms.any (fun t => TESTING_TIER_TERMS.contains t)
  if testing_threshold ≤ score ∧ has_testing_term = true then "testing"
  else if TIER_SERVICE_DEFAULT ≤ score then "service"
  else "none"

/-! ## C2: tier assignment -/

/-- C2 counterexample: the claim says `assign_tier` returns NONE whenever
`score` is below the service threshold (2) regardless of terms and regardless
of the testing-threshold; but with testing-threshold 0, score 1 and a
strong-evidence term matched, the code returns TESTING, not NONE. -/
theorem c2_counterexample :
    assign_tier 1 ["backflow testing"] 0 = "testing" ∧
    (1 : Int) < TIER_SERVICE_DEFAULT ∧
    assign_tier 1 ["backflow testing"] 0 ≠ "none" := by decide

/-- C2 (amended): `assign_tier score terms t` returns TESTING iff
`score ≥ t` and `terms` intersects the strong-evidence set; when the TESTING
condition fails it returns SERVICE iff `score ≥ 2`; and it returns NONE
whenever `score < 2` and the TESTING condition also fails (not
unconditionally for `score < 2`: a testing-threshold `t ≤ score` together
with a strong term still yields TESTING). -/
theorem c2_assign_tier_amended (score : Int) (terms : List String) (t : Int) :
    (assign_tier score terms t = "testing" ↔
      (t ≤ score ∧ ∃ x ∈ terms, x ∈ TESTING_TIER_TERMS)) ∧
    (¬ (t ≤ score ∧ ∃ x ∈ terms, x ∈ TESTING_TIER_TERMS) →
      (assign_tier score terms t = "service" ↔ TIER_SERVICE_DEFAULT ≤ score)) ∧
    (score < TIER_SERVICE_DEFAULT →
      ¬ (t ≤ score ∧ ∃ x ∈ terms, x ∈ TESTING_TIER_TERMS) →
      assign_tier score terms t = "none") := by
  have hany : (terms.any (fun s => TESTING_TIER_TERMS.contains s) = true) ↔
      (∃ x ∈ terms, x ∈ TESTING_TIER_TERMS) := by
    simp [List.any_eq_true, List.elem_iff]
  unfold assign_tier
  by_cases h1 : t ≤ score ∧ terms.any (fun s => TESTING_TIER_TERMS.contains s) = true
  · rw [if_pos h1]
    refine ⟨⟨fun _ => ⟨h1.1, hany.mp h1.2⟩, fun _ => rfl⟩, ?_, ?_⟩
    · intro hn; exact absurd ⟨h1.1, hany.mp h1.2⟩ hn
    · intro _ hn; exact absurd ⟨h1.1, hany.mp h1.2⟩ hn
  · rw [if_neg h1]
    have h1' : ¬ (t ≤ score ∧ ∃ x ∈ terms, x ∈ TESTING_TIER_TERMS) := by
      intro hc; exact h1 ⟨hc.1, hany.mpr hc.2⟩
    by_cases h2 : TIER_SERVICE_DEFAULT ≤ score
    · rw [if_pos h2]
      exact ⟨⟨fun h => absurd h (by decide), fun hc => absurd hc h1'⟩,
        fun _ => ⟨fun _ => h2, fun _ => rfl⟩,
        fun hlt _ => absurd h2 (not_le.mpr hlt)⟩
    · rw [if_neg h2]
      exact ⟨⟨fun h => absurd h (by decide), fun hc => absurd hc h1'⟩,
        fun _ => ⟨fun h => absurd h (by decide), fun hc => absurd hc h2⟩,
        fun _ _ => rfl⟩

/-- C2 witness: the amended theorem applied at score 1, one strong term,
testing-threshold 4 gives tier NONE. -/
theorem c2_witness : assign_tier 1 ["backflow testing"] 4 = "none" :=
  (c2_assign_tier_amended 1 ["backflow testing"] 4).2.2 (by decide)
    (by intro h; exact absurd h.1 (by decide))

/-! ## C3: strong-evidence set vs term table -/

/-- C3 counterexample: the strong-evidence set is not a subset of the term
table; the entry `annual backflow test` of `TESTING_TIER_TERMS` is not a key
of `BACKFLOW_TERMS` (the table only has `annual test`). -/
theorem c3_counterexample :
    "annual backflow test" ∈ TESTING_TIER_TERMS ∧
    "annual backflow test" ∉ BACKFLOW_TERMS.map Prod.fst := by decide

/-- C3 (amended): every term of the strong-evidence set other than
`annual backflow test` is a key of the weighted term table. -/
theorem c3_strong_subset_amended :
    ∀ t ∈ TESTING_TIER_TERMS, t ≠ "annual backflow test" →
      t ∈ BACKFLOW_TERMS.map Prod.fst := by decide

/-- C3 witness: the amended theorem applied to `backflow testing`. -/
theorem c3_witness : "backflow testing" ∈ BACKFLOW_TERMS.map Prod.fst :=
  c3_strong_subset_amended "backflow testing" (by decide) (by decide)

/-! ## C4: score = capped sum of weights of matching terms, monotone -/

theorem score_foldl_eq (tl : String) (l : List (String × Nat)) (a : Nat)
    (m : List String) :
    (l.foldl
      (fun (acc : Nat × List String) p =>
        if pyIn p.1 tl = true then (acc.1 + p.2, acc.2 ++ [p.1]) else acc)
      (a, m)) =
    (a + ((l.filter fun p => pyIn p.1 tl).map Prod.snd).sum,
     m ++ (l.filter fun p => pyIn p.1 tl).map Prod.fst) := by
  induction l generalizing a m with
  | nil => simp
  | cons p t ih =>
    by_cases h : pyIn p.1 tl = true
    · simp [h, ih, Nat.add_assoc]
    · simp [h, ih]

theorem sum_filter_mono {α : Type} (f : α → Nat) (p q : α → Bool)
    (l : List α) (h : ∀ x ∈ l, p x = true → q x = true) :
    ((l.filter p).map f).sum ≤ ((l.filter q).map f).sum := by
  induction l with
  | nil => simp
  | cons x t ih =>
    have ht : ∀ y ∈ t, p y = true → q y = true :=
      fun y hy => h y (List.mem_cons_of_mem x hy)
    by_cases hp : p x = true
    · rw [List.filter_cons_of_pos hp,
        List.filter_cons_of_pos (h x (List.mem_cons_self x t) hp)]
      simpa using Nat.add_le_add_left (ih ht) (f x)
    · rw [List.filter_cons_of_neg (by simpa using hp)]
      by_cases hq : q x = true
      · rw [List.filter_cons_of_pos hq]
        calc ((t.filter p).map f).sum ≤ ((t.filter q).map f).sum := ih ht
          _ ≤ f x + ((t.filter q).map f).sum := Nat.le_add_left _ _
          _ = (((x :: t.filter q)).map f).sum := by simp
      · rw [List.filter_cons_of_neg (by simpa using hq)]
        exact ih ht

/-- C4: the term-table keys are distinct; the score returned by `score_text`
is the sum of the weights of the (distinct) matching terms capped at 10, hence
always at most 10; and the score is monotone in the set of matching terms:
if every table term occurring in `t1` also occurs in `t2`, the score of `t1`
is at most the score of `t2`. -/
theorem c4_score_props :
    (BACKFLOW_TERMS.map Prod.fst).Nodup ∧
    (∀ text : String,
      (score_text text).1 =
        min 10 (((BACKFLOW_TERMS.filter fun p =>
          pyIn p.1 (pyLower text)).map Prod.snd).sum) ∧
      (score_text text).1 ≤ 10) ∧
    (∀ t1 t2 : String,
      (∀ p ∈ BACKFLOW_TERMS, pyIn p.1 (pyLower t1) = true →
        pyIn p.1 (pyLower t2) = true) →
      (score_text t1).1 ≤ (score_text t2).1) := by
  have hchar : ∀ text : String,
      (score_text text).1 =
        min 10 (((BACKFLOW_TERMS.filter fun p =>
          pyIn p.1 (pyLower text)).map Prod.snd).sum) := by
    intro text
    by_cases h : text = ""
    · subst h; decide
    · unfold score_text
      rw [if_neg h]
      simp only [score_foldl_eq, Nat.zero_add]
  refine ⟨by decide, fun text => ⟨hchar text, ?_⟩, ?_⟩
  · rw [hchar text]; exact Nat.min_le_left _ _
  · intro t1 t2 h
    rw [hchar t1, hchar t2]
    exact min_le_min (le_refl 10)
      (sum_filter_mono Prod.snd _ _ BACKFLOW_TERMS h)

/-- C4 witness: the monotonicity part applied to the concrete texts `rpz`
and `rpz backflow`, and the cap at the concrete text `rpz`. -/
theorem c4_witness :
    (score_text "rpz").1 ≤ (score_text "rpz backflow").1 ∧
    (score_text "rpz").1 ≤ 10 :=
  ⟨c4_score_props.2.2 "rpz" "rpz backflow" (by decide),
   (c4_score_props.2.1 "rpz").2⟩

/-! ## C1: the end-to-end scoring scenario

Substring matching makes a text containing `backflow testing` also match the
table terms `backflow test` (weight 3) and `backflow` (weight 1), so the
scenario text scores 3 + 3 + 1 + 1 = 8, not 4. -/

/-- C1 counterexample: a homepage text containing exactly the phrases
`backflow testing` and `rpz` (and no other scoring-relevant text) scores 8,
not 4, and its matched-term list also contains `backflow test`, which is not
in the claimed matched set. -/
theorem c1_counterexample :
    (score_text "backflow testing and rpz").1 = 8 ∧ (8 : Nat) ≠ 4 ∧
    "backflow test" ∈ (score_text "backflow testing and rpz").2 ∧
    "backflow test" ∉ (["backflow testing", "rpz"] : List String) := by decide

theorem c1_sub_bt : ("backflow test".data) <:+: ("backflow testing".data) :=
  ⟨[], "ing".data, by decide⟩

theorem c1_sub_b : ("backflow".data) <:+: ("backflow testing".data) :=
  ⟨[], " testing".data, by decide⟩

theorem c1_sub_cc : ("cross connection".data) <:+:
    ("cross connection control".data) :=
  ⟨[], " control".data, by decide⟩

theorem c1_sub_rp : ("reduced pressure".data) <:+:
    ("reduced pressure zone".data) :=
  ⟨[], " zone".data, by decide⟩

/-- C1 (amended): for any homepage text that contains `backflow testing` and
`rpz` and none of the other table terms not already forced by those two
(substring containment forces `backflow test` and `backflow` as well),
`score_text` returns score 8 with matched terms
`backflow testing`, `backflow test`, `rpz`, `backflow`; the tier is TESTING
whenever the testing-threshold is at most 4 (indeed at most 8). -/
theorem c1_scenario_amended (text : String)
    (h1 : pyIn "backflow testing" (pyLower text) = true)
    (h2 : pyIn "rpz" (pyLower text) = true)
    (n1 : pyIn "backflow tester" (pyLower text) = false)
    (n2 : pyIn "backflow inspection" (pyLower text) = false)
    (n3 : pyIn "backflow preventer" (pyLower text) = false)
    (n4 : pyIn "backflow prevention" (pyLower text) = false)
    (n5 : pyIn "backflow installation" (pyLower text) = false)
    (n6 : pyIn "backflow repair" (pyLower text) = false)
    (n7 : pyIn "backflow service" (pyLower text) = false)
    (n8 : pyIn "backflow certification" (pyLower text) = false)
    (n9 : pyIn "backflow certified" (pyLower text) = false)
    (n10 : pyIn "cross connection" (pyLower text) = false)
    (n11 : pyIn "cross-connection" (pyLower text) = false)
    (n12 : pyIn "rpz testing" (pyLower text) = false)
    (n13 : pyIn "reduced pressure" (pyLower text) = false)
    (n14 : pyIn "dcva" (pyLower text) = false)
    (n15 : pyIn "double check valve" (pyLower text) = false)
    (n16 : pyIn "double-check valve" (pyLower text) = false)
    (n17 : pyIn "pvb" (pyLower text) = false)
    (n18 : pyIn "pressure vacuum breaker" (pyLower text) = false)
    (n19 : pyIn "back flow" (pyLower text) = false)
    (n20 : pyIn "irrigation backflow" (pyLower text) = false)
    (n21 : pyIn "sprinkler backflow" (pyLower text) = false)
    (n22 : pyIn "test report" (pyLower text) = false)
    (n23 : pyIn "annual test" (pyLower text) = false) :
    score_text text = (8, ["backflow testing", "backflow test", "rpz", "backflow"]) ∧
    (∀ t : Int, t ≤ 4 → assign_tier 8 (score_text text).2 t = "testing") := by
  have htxt : text ≠ "" := by
    intro h
    rw [h] at h1
    exact absurd h1 (by decide)
  have p3 : pyIn "backflow test" (pyLower text) = true :=
    pyIn_of_subterm h1 c1_sub_bt
  have p4 : pyIn "backflow" (pyLower text) = true :=
    pyIn_of_subterm h1 c1_sub_b
  have n24 : pyIn "cross connection control" (pyLower text) = false :=
    pyIn_false_of_subterm c1_sub_cc n10
  have n25 : pyIn "reduced pressure zone" (pyLower text) = false :=
    pyIn_false_of_subterm c1_sub_rp n13
  have hmain :
      score_text text =
        (8, ["backflow testing", "backflow test", "rpz", "backflow"]) := by
    unfold score_text
    rw [if_neg htxt]
    simp only [BACKFLOW_TERMS, List.foldl_cons, List.foldl_nil,
      h1, h2, p3, p4, n1, n2, n3, n4, n5, n6, n7, n8, n9, n10, n11, n12, n13,
      n14, n15, n16, n17, n18, n19, n20, n21, n22, n23, n24, n25,
      if_true, if_false, Bool.false_eq_true, ite_false, ite_true]
    decide
  refine ⟨hmain, fun t ht => ?_⟩
  have hm2 : (score_text text).2 =
      ["backflow testing", "backflow test", "rpz", "backflow"] :=
    congrArg Prod.snd hmain
  rw [hm2]
  unfold assign_tier
  rw [if_pos ⟨by omega, by decide⟩]

/-- C1 witness: the amended theorem applied to the concrete homepage text
`backflow testing and rpz` with testing-threshold 4. -/
theorem c1_witness :
    score_text "backflow testing and rpz" =
      (8, ["backflow testing", "backflow test", "rpz", "backflow"]) ∧
    assign_tier 8 (score_text "backflow testing and rpz").2 4 = "testing" := by
  have h := c1_scenario_amended "backflow testing and rpz"
    (by decide) (by decide) (by decide) (by decide) (by decide) (by decide)
    (by decide) (by decide) (by decide) (by decide) (by decide) (by decide)
    (by decide) (by decide) (by decide) (by decide) (by decide) (by decide)
    (by decide) (by decide) (by decide) (by decide) (by decide) (by decide)
    (by decide)
  exact ⟨h.1, h.2 4 (by decide)⟩

/-! ## Image-enrichment pipeline (crawler/05_enrich_images.py)

Tuning constants, lines 71-80. -/

def MAX_CANDIDATES : Nat := 6

def VISION_BATCH_SIZE : Nat := 3

def MAX_SELECTED : Nat := 3

def IMAGE_MAX_BYTES : Nat := 5 * 1024 * 1024

/-- One classifier verdict (a parsed JSON object
`{"relevant": ..., "confidence": ..., "reason": ...}`). -/
structure Verdict where
  relevant : Bool
  confidence : Int
  reason : String
deriving DecidableEq

/-- Outcome of the Vision API call plus `json.loads` in `vision_verify_batch`:
either the call raised / the text was not valid JSON (`failed`), or it parsed
to a single non-list value (`single`, wrapped into a one-element list by the
source), or it parsed to a list of verdicts (`arr`). -/
inductive VisionParse where
  | failed
  | single (v : Verdict)
  | arr (vs : List Verdict)
deriving DecidableEq

def pessimisticVerdict : Verdict := ⟨false, 0, "vision error"⟩

def missingVerdict : Verdict := ⟨false, 0, "missing verdict"⟩

/-- Pad with `missingVerdict` up to the image count, then truncate
(`while len(verdicts) < len(image_data): verdicts.append(...)` followed by
`verdicts[: len(image_data)]`). -/
def padTruncate (vs : List Verdict) (n : Nat) : List Verdict :=
  (vs ++ List.replicate (n - vs.length) missingVerdict).take n

/-- `vision_verify_batch` (crawler/05_enrich_images.py, lines 336-398),
as a function of the submitted image list and of the collaborator response.
The network call itself is the external collaborator; everything after it
(exception handling, JSON failure handling, non-list wrapping, padding and
truncation) is the source logic. -/
def vision_verify_batch {α : Type} (image_data : List α)
    (resp : VisionParse) : List Verdict :=
  if image_data.isEmpty then []
  else
    match resp with
    | .failed => image_data.map (fun _ => pessimisticVerdict)
    | .single v => padTruncate [v] image_data.length
    | .arr vs => padTruncate vs image_data.length

theorem padTruncate_length (vs : List Verdict) (n : Nat) :
    (padTruncate vs n).length = n := by
  simp [padTruncate]
  omega

/-- C6: `vision_verify_batch` always returns exactly one verdict per
submitted image; on a failed call or unparsable response every verdict is
pessimistic (relevant = false, confidence 0); when the classifier returns a
list, the first `min |vs| n` verdicts are passed through in submission order
and any shortfall is filled with pessimistic `missing verdict` entries; no
padding or failure verdict is ever accepting. -/
theorem c6_vision_batch {α : Type} (image_data : List α) (resp : VisionParse) :
    (vision_verify_batch image_data resp).length = image_data.length ∧
    (resp = .failed →
      ∀ v ∈ vision_verify_batch image_data resp,
        v.relevant = false ∧ v.confidence = 0) ∧
    (∀ vs, resp = .arr vs →
      (∀ i : Nat, i < vs.length → i < image_data.length →
        (vision_verify_batch image_data resp).get? i = vs.get? i) ∧
      (∀ i : Nat, vs.length ≤ i → i < image_data.length →
        (vision_verify_batch image_data resp).get? i = some missingVerdict)) ∧
    (missingVerdict.relevant = false ∧ missingVerdict.confidence = 0) := by
  refine ⟨?_, ?_, ?_, by decide⟩
  · unfold vision_verify_batch
    by_cases h : image_data.isEmpty
    · rw [if_pos h]
      simp [List.isEmpty_iff.mp h]
    · rw [if_neg h]
      cases resp with
      | failed => simp
      | single v => exact padTruncate_length _ _
      | arr vs => exact padTruncate_length _ _
  · rintro rfl v hv
    unfold vision_verify_batch at hv
    by_cases h : image_data.isEmpty
    · rw [if_pos h] at hv; simp at hv
    · rw [if_neg h] at hv
      simp only [List.mem_map] at hv
      obtain ⟨_, _, rfl⟩ := hv
      exact ⟨rfl, rfl⟩
  · rintro vs rfl
    constructor
    · intro i hi hin
      unfold vision_verify_batch
      by_cases h : image_data.isEmpty
      · simp [List.isEmpty_iff.mp h] at hin
      · rw [if_neg h]
        unfold padTruncate
        rw [List.get?_take hin, List.get?_append hi]
    · intro i hi hin
      unfold vision_verify_batch
      by_cases h : image_data.isEmpty
      · simp [List.isEmpty_iff.mp h] at hin
      · rw [if_neg h]
        unfold padTruncate
        rw [List.get?_take hin, List.get?_append_right hi]
        have hlt : i - vs.length < image_data.length - vs.length := by omega
        simp [List.get?_eq_getElem?, hlt]

/-- C6 witness: three submitted images and a two-verdict response give three
verdicts, with the third one a non-accepting `missing verdict` pad. -/
theorem c6_witness :
    (vision_verify_batch ["u1", "u2", "u3"]
        (.arr [⟨true, 90, "a"⟩, ⟨false, 10, "b"⟩])).length = 3 ∧
    (vision_verify_batch ["u1", "u2", "u3"]
        (.arr [⟨true, 90, "a"⟩, ⟨false, 10, "b"⟩])).get? 2 =
      some missingVerdict := by
  have h := c6_vision_batch ["u1", "u2", "u3"]
    (.arr [⟨true, 90, "a"⟩, ⟨false, 10, "b"⟩])
  exact ⟨by simpa using h.1,
    (h.2.2.1 [⟨true, 90, "a"⟩, ⟨false, 10, "b"⟩] rfl).2 2 (by decide) (by decide)⟩

/-! ## C7: the Vision selection loop (crawler/05_enrich_images.py, lines 507-553)

One selected image as stored by the source
(`{"url": ..., "confidence": ..., "reason": ..., "source": ...}`; the
`source` column is determined by the url so it is omitted here). -/

structure SelImg where
  url : String
  confidence : Int
  reason : String
deriving DecidableEq

/-- The inner `for (url, _, _), verdict in zip(image_data, verdicts)` loop for
one sub-batch, threading the accumulated `selected` list: a pair is appended
iff its verdict is relevant, its confidence reaches the threshold, and fewer
than `MAX_SELECTED` images are selected so far. -/
def selectFold (threshold : Int) (selected : List SelImg)
    (pairs : List (String × Verdict)) : List SelImg :=
  pairs.foldl
    (fun sel uv =>
      if uv.2.relevant = true ∧ threshold ≤ uv.2.confidence ∧
          sel.length < MAX_SELECTED then
        sel ++ [⟨uv.1, uv.2.confidence, uv.2.reason⟩]
      else sel)
    selected

/-- The outer sub-batch loop of stage C: each element of `batches` is the
zip of the downloaded images of one sub-batch with their verdicts
(`vision_verify_batch` returns exactly one verdict per downloaded image, so
the zip loses nothing). The loop breaks when the evaluated budget or the
selection cap is reached and skips empty sub-batches without evaluating. -/
def visionLoop (threshold : Int) :
    List (List (String × Verdict)) → Nat → List SelImg → List SelImg
  | [], _, selected => selected
  | b :: bs, evaluated, selected =>
    if MAX_CANDIDATES ≤ evaluated ∨ MAX_SELECTED ≤ selected.length then selected
    else if b.isEmpty then visionLoop threshold bs evaluated selected
    else visionLoop threshold bs (evaluated + b.length)
      (selectFold threshold selected b)

theorem selectFold_length_le (threshold : Int) (pairs : List (String × Verdict)) :
    ∀ selected : List SelImg, selected.length ≤ MAX_SELECTED →
      (selectFold threshold selected pairs).length ≤ MAX_SELECTED := by
  induction pairs with
  | nil => intro s h; exact h
  | cons p t ih =>
    intro s h
    unfold selectFold
    rw [List.foldl_cons]
    by_cases hc : p.2.relevant = true ∧ threshold ≤ p.2.confidence ∧
        s.length < MAX_SELECTED
    · rw [if_pos hc]
      exact ih _ (by simp; omega)
    · rw [if_neg hc]
      exact ih _ h

theorem selectFold_mem (threshold : Int) (pairs : List (String × Verdict)) :
    ∀ selected : List SelImg, ∀ s ∈ selectFold threshold selected pairs,
      s ∈ selected ∨ ∃ uv ∈ pairs, s = ⟨uv.1, uv.2.confidence, uv.2.reason⟩ ∧
        uv.2.relevant = true ∧ threshold ≤ uv.2.confidence := by
  induction pairs with
  | nil => intro sel s h; exact Or.inl h
  | cons p t ih =>
    intro sel s h
    unfold selectFold at h
    rw [List.foldl_cons] at h
    by_cases hc : p.2.relevant = true ∧ threshold ≤ p.2.confidence ∧
        sel.length < MAX_SELECTED
    · rw [if_pos hc] at h
      rcases ih _ s h with hmem | ⟨uv, huv, he⟩
      · rcases List.mem_append.mp hmem with hs | hs
        · exact Or.inl hs
        · simp only [List.mem_singleton] at hs
          exact Or.inr ⟨p, List.mem_cons_self p t, hs, hc.1, hc.2.1⟩
      · exact Or.inr ⟨uv, List.mem_cons_of_mem p huv, he⟩
    · rw [if_neg hc] at h
      rcases ih _ s h with hmem | ⟨uv, huv, he⟩
      · exact Or.inl hmem
      · exact Or.inr ⟨uv, List.mem_cons_of_mem p huv, he⟩

theorem selectFold_urls (threshold : Int) (pairs : List (String × Verdict)) :
    ∀ selected : List SelImg, ∃ r : List String,
      (selectFold threshold selected pairs).map SelImg.url =
        selected.map SelImg.url ++ r ∧ r.Sublist (pairs.map Prod.fst) := by
  induction pairs with
  | nil => intro sel; exact ⟨[], by simp [selectFold]⟩
  | cons p t ih =>
    intro sel
    unfold selectFold
    rw [List.foldl_cons]
    by_cases hc : p.2.relevant = true ∧ threshold ≤ p.2.confidence ∧
        sel.length < MAX_SELECTED
    · rw [if_pos hc]
      obtain ⟨r, hr, hs⟩ := ih (sel ++ [⟨p.1, p.2.confidence, p.2.reason⟩])
      refine ⟨p.1 :: r, ?_, ?_⟩
      · rw [show selectFold threshold
          (sel ++ [⟨p.1, p.2.confidence, p.2.reason⟩]) t =
            t.foldl _ (sel ++ [⟨p.1, p.2.confidence, p.2.reason⟩]) from rfl] at hr
        rw [hr]; simp
      · exact List.Sublist.cons₂ p.1 hs
    · rw [if_neg hc]
      obtain ⟨r, hr, hs⟩ := ih sel
      exact ⟨r, hr, hs.cons p.1⟩

theorem visionLoop_length_le (threshold : Int)
    (batches : List (List (String × Verdict))) :
    ∀ evaluated : Nat, ∀ selected : List SelImg,
      selected.length ≤ MAX_SELECTED →
      (visionLoop threshold batches evaluated selected).length ≤ MAX_SELECTED := by
  induction batches with
  | nil => intro e s h; exact h
  | cons b bs ih =>
    intro e s h
    unfold visionLoop
    by_cases h1 : MAX_CANDIDATES ≤ e ∨ MAX_SELECTED ≤ s.length
    · rw [if_pos h1]; exact h
    · rw [if_neg h1]
      by_cases h2 : b.isEmpty
      · rw [if_pos h2]; exact ih e s h
      · rw [if_neg h2]
        exact ih _ _ (selectFold_length_le threshold b s h)

theorem visionLoop_mem (threshold : Int)
    (batches : List (List (String × Verdict))) :
    ∀ evaluated : Nat, ∀ selected : List SelImg,
      ∀ s ∈ visionLoop threshold batches evaluated selected,
        s ∈ selected ∨ ∃ uv ∈ batches.join,
          s = ⟨uv.1, uv.2.confidence, uv.2.reason⟩ ∧
          uv.2.relevant = true ∧ threshold ≤ uv.2.confidence := by
  induction batches with
  | nil => intro e sel s h; exact Or.inl h
  | cons b bs ih =>
    intro e sel s h
    unfold visionLoop at h
    by_cases h1 : MAX_CANDIDATES ≤ e ∨ MAX_SELECTED ≤ sel.length
    · rw [if_pos h1] at h; exact Or.inl h
    · rw [if_neg h1] at h
      by_cases h2 : b.isEmpty
      · rw [if_pos h2] at h
        rcases ih e sel s h with hs | ⟨uv, huv, he⟩
        · exact Or.inl hs
        · exact Or.inr ⟨uv, by simp [List.mem_join] at huv ⊢; tauto, he⟩
      · rw [if_neg h2] at h
        rcases ih _ _ s h with hs | ⟨uv, huv, he⟩
        · rcases selectFold_mem threshold b sel s hs with hs' | ⟨uv, huv, he⟩
          · exact Or.inl hs'
          · exact Or.inr ⟨uv, by simp [List.mem_join]; exact Or.inl huv, he⟩
        · exact Or.inr ⟨uv, by simp [List.mem_join] at huv ⊢; tauto, he⟩

theorem visionLoop_urls (threshold : Int)
    (batches : List (List (String × Verdict))) :
    ∀ evaluated : Nat, ∀ selected : List SelImg, ∃ r : List String,
      (visionLoop threshold batches evaluated selected).map SelImg.url =
        selected.map SelImg.url ++ r ∧
      r.Sublist (batches.join.map Prod.fst) := by
  induction batches with
  | nil => intro e sel; exact ⟨[], by simp [visionLoop]⟩
  | cons b bs ih =>
    intro e sel
    unfold visionLoop
    by_cases h1 : MAX_CANDIDATES ≤ e ∨ MAX_SELECTED ≤ sel.length
    · rw [if_pos h1]; exact ⟨[], by simp⟩
    · rw [if_neg h1]
      by_cases h2 : b.isEmpty
      · rw [if_pos h2]
        obtain ⟨r, hr, hs⟩ := ih e sel
        refine ⟨r, hr, ?_⟩
        simp only [List.join_cons, List.map_append]
        exact hs.trans (List.sublist_append_right _ _)
      · rw [if_neg h2]
        obtain ⟨r1, hr1, hs1⟩ := selectFold_urls threshold b sel
        obtain ⟨r2, hr2, hs2⟩ := ih (e + b.length) (selectFold threshold sel b)
        refine ⟨r1 ++ r2, ?_, ?_⟩
        · rw [hr2, hr1, List.append_assoc]
        · simp only [List.join_cons, List.map_append]
          exact List.Sublist.append hs1 hs2

/-- C7: for every threshold and sequence of verdict sub-batches, the stage-C
selection loop (started with evaluated = 0 and nothing selected) selects at
most `MAX_SELECTED` = 3 images; every selected image comes from an evaluated
(url, verdict) pair whose verdict is relevant with confidence at least the
threshold (the stored confidence being the confidence of that verdict); the
selected urls form a sublist of the evaluated candidate urls in sub-batch
order (no re-ranking by confidence); and in the end-to-end scenario — six
candidates in two sub-batches, relevant verdicts with confidences 90, 40, 75
and threshold 60 — exactly the images with confidences 90 and 75 are
selected, in that relative order. -/
theorem c7_selection (threshold : Int)
    (batches : List (List (String × Verdict))) :
    (visionLoop threshold batches 0 []).length ≤ 3 ∧
    (∀ s ∈ visionLoop threshold batches 0 [],
      ∃ uv ∈ batches.join, s = ⟨uv.1, uv.2.confidence, uv.2.reason⟩ ∧
        uv.2.relevant = true ∧ threshold ≤ uv.2.confidence) ∧
    ((visionLoop threshold batches 0 []).map SelImg.url).Sublist
      (batches.join.map Prod.fst) ∧
    visionLoop 60
        [[("u1", ⟨true, 90, "a"⟩), ("u2", ⟨true, 40, "b"⟩),
          ("u3", ⟨false, 95, "c"⟩)],
         [("u4", ⟨true, 75, "d"⟩), ("u5", ⟨false, 10, "e"⟩),
          ("u6", ⟨false, 99, "f"⟩)]] 0 [] =
      [⟨"u1", 90, "a"⟩, ⟨"u4", 75, "d"⟩] := by
  refine ⟨visionLoop_length_le threshold batches 0 [] (by decide), ?_, ?_, by decide⟩
  · intro s hs
    rcases visionLoop_mem threshold batches 0 [] s hs with h | h
    · simp at h
    · exact h
  · obtain ⟨r, hr, hsub⟩ := visionLoop_urls threshold batches 0 []
    rw [hr]; simpa using hsub

/-- C7 witness: the general parts applied to the concrete scenario batches. -/
theorem c7_witness :
    (visionLoop 60
        [[("u1", ⟨true, 90, "a"⟩), ("u2", ⟨true, 40, "b"⟩),
          ("u3", ⟨false, 95, "c"⟩)],
         [("u4", ⟨true, 75, "d"⟩), ("u5", ⟨false, 10, "e"⟩),
          ("u6", ⟨false, 99, "f"⟩)]] 0 []).length ≤ 3 ∧
    ∃ uv ∈ ([[("u1", (⟨true, 90, "a"⟩ : Verdict)), ("u2", ⟨true, 40, "b"⟩),
          ("u3", ⟨false, 95, "c"⟩)],
         [("u4", ⟨true, 75, "d"⟩), ("u5", ⟨false, 10, "e"⟩),
          ("u6", ⟨false, 99, "f"⟩)]] : List (List (String × Verdict))).join,
      (⟨"u1", 90, "a"⟩ : SelImg) = ⟨uv.1, uv.2.confidence, uv.2.reason⟩ ∧
        uv.2.relevant = true ∧ (60 : Int) ≤ uv.2.confidence := by
  have h := c7_selection 60
    [[("u1", ⟨true, 90, "a"⟩), ("u2", ⟨true, 40, "b"⟩),
      ("u3", ⟨false, 95, "c"⟩)],
     [("u4", ⟨true, 75, "d"⟩), ("u5", ⟨false, 10, "e"⟩),
      ("u6", ⟨false, 99, "f"⟩)]]
  refine ⟨h.1, h.2.1 ⟨"u1", 90, "a"⟩ ?_⟩
  rw [h.2.2.2]
  decide

/-! ## C8: checkpoint persistence

A micro-step filesystem model over the two paths involved (the checkpoint
file and its temp sibling).  `open(path, "w")` truncates the file and then
`json.dump` streams the serialized text in chunks, modelled as a `truncate`
followed by one `append` per chunk (quantifying over every chunking of the
content); `Path.replace` is a single atomic `rename` step. -/

structure Fs where
  stateData : Option String
  tmpData : Option String
deriving DecidableEq

inductive FsOp where
  | truncState
  | appendState (chunk : String)
  | truncTmp
  | appendTmp (chunk : String)
  | renameTmpToState
deriving DecidableEq

def applyOp (fs : Fs) : FsOp → Fs
  | .truncState => { fs with stateData := some "" }
  | .appendState c => { fs with stateData := some ((fs.stateData.getD "") ++ c) }
  | .truncTmp => { fs with tmpData := some "" }
  | .appendTmp c => { fs with tmpData := some ((fs.tmpData.getD "") ++ c) }
  | .renameTmpToState => { stateData := fs.tmpData, tmpData := none }

def runOps (fs : Fs) (ops : List FsOp) : Fs := ops.foldl applyOp fs

def joinChunks : List String → String
  | [] => ""
  | c :: cs => c ++ joinChunks cs

/-- `save_checkpoint` (crawler/03_verify_backflow.py, lines 515-521):
`open(STATE_JSON, "w")` then `json.dump(state, f)` — a truncate of the
checkpoint file itself followed by the serialized chunks appended in place. -/
def save_checkpoint_ops (chunks : List String) : List FsOp :=
  FsOp.truncState :: chunks.map FsOp.appendState

/-- `save_state` (crawler/05_enrich_images.py, lines 151-157): write the
serialized chunks to the `.tmp` sibling, then `tmp.replace(state_file)`. -/
def save_state_ops (chunks : List String) : List FsOp :=
  (FsOp.truncTmp :: chunks.map FsOp.appendTmp) ++ [FsOp.renameTmpToState]

/-- Crash-atomicity of a persist routine: after any prefix of its micro-step
trace, for any chunking of the content, the checkpoint file holds either its
old content or the complete new content — never a torn intermediate. -/
def atomicPersist (progOf : List String → List FsOp) : Prop :=
  ∀ (chunks : List String) (fs : Fs) (k : Nat),
    (runOps fs ((progOf chunks).take k)).stateData = fs.stateData ∨
    (runOps fs ((progOf chunks).take k)).stateData = some (joinChunks chunks)

/-- C8 counterexample: the `save_checkpoint` of the verifier writes the checkpoint
file in place, so interrupting it between two chunk writes leaves a torn
file (content `a` where the old content was `old` and the new content `ab`);
it is not an atomic temp-file-plus-rename persist. -/
theorem c8_counterexample :
    (runOps ⟨some "old", none⟩ ((save_checkpoint_ops ["a", "b"]).take 2)).stateData
      = some "a" ∧
    some "a" ≠ some "old" ∧ some "a" ≠ some (joinChunks ["a", "b"]) ∧
    ¬ atomicPersist save_checkpoint_ops := by
  refine ⟨by decide, by decide, by decide, ?_⟩
  intro h
  rcases h ["a", "b"] ⟨some "old", none⟩ 2 with hc | hc <;> revert hc <;> decide

theorem runOps_tmp_only (ops : List FsOp)
    (h : ∀ op ∈ ops, op = FsOp.truncTmp ∨ ∃ c, op = FsOp.appendTmp c) :
    ∀ fs : Fs, (runOps fs ops).stateData = fs.stateData := by
  induction ops with
  | nil => intro fs; rfl
  | cons op t ih =>
    intro fs
    have ht : ∀ o ∈ t, o = FsOp.truncTmp ∨ ∃ c, o = FsOp.appendTmp c :=
      fun o ho => h o (List.mem_cons_of_mem op ho)
    rcases h op (List.mem_cons_self op t) with rfl | ⟨c, rfl⟩ <;>
      simpa [runOps, applyOp] using ih ht _

theorem runOps_append (fs : Fs) (l1 l2 : List FsOp) :
    runOps fs (l1 ++ l2) = runOps (runOps fs l1) l2 := by
  simp [runOps, List.foldl_append]

theorem runOps_appendTmp (chunks : List String) :
    ∀ fs : Fs, ∀ s : String, fs.tmpData = some s →
      (runOps fs (chunks.map FsOp.appendTmp)).tmpData = some (s ++ joinChunks chunks) ∧
      (runOps fs (chunks.map FsOp.appendTmp)).stateData = fs.stateData := by
  induction chunks with
  | nil => intro fs s h; simp [runOps, joinChunks, h]
  | cons c t ih =>
    intro fs s h
    have step : (applyOp fs (FsOp.appendTmp c)).tmpData = some (s ++ c) := by
      simp [applyOp, h]
    have hrec := ih (applyOp fs (FsOp.appendTmp c)) (s ++ c) step
    constructor
    · show (runOps (applyOp fs (FsOp.appendTmp c)) (t.map FsOp.appendTmp)).tmpData
        = some (s ++ joinChunks (c :: t))
      rw [hrec.1]
      simp [joinChunks, String.append_assoc]
    · show (runOps (applyOp fs (FsOp.appendTmp c)) (t.map FsOp.appendTmp)).stateData
        = fs.stateData
      rw [hrec.2]
      simp [applyOp]

/-- C8 (amended): `save_state` of the image-enrichment pipeline IS atomic:
after any prefix of its trace, under any chunking, the checkpoint file holds
either its old content or the complete new content (the rename installs the
fully written temp file in one step).  The `save_checkpoint` of the verifier is a
plain in-place write, shown non-atomic by the counterexample. -/
theorem c8_save_state_atomic : atomicPersist save_state_ops := by
  intro chunks fs k
  by_cases hk : k ≤ (chunks.map FsOp.appendTmp).length + 1
  · left
    have hpre : (save_state_ops chunks).take k =
        (FsOp.truncTmp :: chunks.map FsOp.appendTmp).take k := by
      unfold save_state_ops
      rw [List.take_append_of_le_length (by simpa using hk)]
    rw [hpre]
    apply runOps_tmp_only
    intro op hop
    have : op ∈ FsOp.truncTmp :: chunks.map FsOp.appendTmp :=
      List.mem_of_mem_take hop
    rcases List.mem_cons.mp this with rfl | hmem
    · exact Or.inl rfl
    · obtain ⟨c, _, rfl⟩ := List.mem_map.mp hmem
      exact Or.inr ⟨c, rfl⟩
  · right
    have hk' : (save_state_ops chunks).length ≤ k := by
      unfold save_state_ops
      simp at hk ⊢
      omega
    rw [List.take_of_length_le hk']
    unfold save_state_ops
    rw [runOps_append]
    have h1 := runOps_appendTmp chunks (applyOp fs FsOp.truncTmp) ""
      (by simp [applyOp])
    show (runOps (runOps (applyOp fs FsOp.truncTmp) (chunks.map FsOp.appendTmp))
      [FsOp.renameTmpToState]).stateData = some (joinChunks chunks)
    have h2 : (runOps (applyOp fs FsOp.truncTmp)
        (chunks.map FsOp.appendTmp)).tmpData = some (joinChunks chunks) := by
      rw [h1.1]; rfl
    rw [show ∀ X : Fs, (runOps X [FsOp.renameTmpToState]).stateData = X.tmpData
      from fun X => rfl]
    exact h2

/-- C8 witness: `save_state` applied to the concrete content `ab` chunked as
`a`, `b`, interrupted after two micro-steps, still shows the old content. -/
theorem c8_witness :
    (runOps ⟨some "old", none⟩ ((save_state_ops ["a", "b"]).take 2)).stateData
        = some "old" ∨
    (runOps ⟨some "old", none⟩ ((save_state_ops ["a", "b"]).take 2)).stateData
        = some (joinChunks ["a", "b"]) :=
  c8_save_state_atomic ["a", "b"] ⟨some "old", none⟩ 2

/-! ## Python string toolkit (kernel-evaluable)

`String.splitOn`, `String.trim`, `String.startsWith` are defined in core by
well-founded byte-position recursion, which the kernel cannot evaluate, so
the Python operations the source uses are re-implemented structurally over
the character list. -/

/-- Python `s.startswith(pre)`. -/
def pyStartsWith (s pre : String) : Bool := pre.data.isPrefixOf s.data

/-- Python `s.strip()` (ASCII whitespace). -/
def pyStrip (s : String) : String :=
  String.mk (((s.data.dropWhile Char.isWhitespace).reverse.dropWhile
    Char.isWhitespace).reverse)

/-- Python `s.split(c)[0]`: everything before the first occurrence of `c`. -/
def takeBeforeChar (c : Char) (s : String) : String :=
  String.mk (s.data.takeWhile (fun x => x ≠ c))

/-- Python `s.split(c)` for a one-character separator. -/
def splitChar (c : Char) : List Char → List (List Char)
  | [] => [[]]
  | x :: t =>
    let r := splitChar c t
    if x = c then [] :: r
    else
      match r with
      | h :: rest => (x :: h) :: rest
      | [] => [[x]]

/-- Split a char list at the first occurrence of `sep`, returning the parts
before and after it, or `none` when `sep` does not occur. -/
def breakOnSub (sep : List Char) : List Char → Option (List Char × List Char)
  | [] => if sep.isEmpty then some ([], []) else none
  | x :: t =>
    if sep.isPrefixOf (x :: t) then some ([], (x :: t).drop sep.length)
    else
      match breakOnSub sep t with
      | some (a, b) => some (x :: a, b)
      | none => none

/-! ## C9: `download_image` (crawler/05_enrich_images.py, lines 265-306) -/

/-- The final HTTP response seen by `download_image` (after redirects):
status code, the raw `content-type` header with the source default `""`
already applied, and the body bytes.  `none` at the call site models the
request raising (timeout, connection error, ...). -/
structure HttpResp where
  status : Nat
  content_type : String
  body : List Nat
deriving DecidableEq

/-- `resp.headers.get("content-type", "").split(";")[0].strip().lower()`. -/
def parseContentType (raw : String) : String :=
  pyLower (pyStrip (takeBeforeChar ';' raw))

def VISION_MEDIA_ALLOWLIST : List String :=
  ["image/jpeg", "image/png", "image/gif", "image/webp"]

/-- `download_image`: returns the body bytes and a normalised media type, or
`none` when the request raised, the status is not 200, the content-type does
not start with `image/`, is an svg/ico type, or the body exceeds 5 MB.
Image content-types outside the jpeg/png/gif/webp list are NOT rejected:
`image/jpg` and every other unknown `image/*` type is relabelled
`image/jpeg` and accepted. -/
def download_image : Option HttpResp → Option (List Nat × String)
  | none => none
  | some r =>
    if r.status ≠ 200 then none
    else
      let ct := parseContentType r.content_type
      if pyStartsWith ct "image/" = false then none
      else if ct = "image/svg+xml" ∨ ct = "image/x-icon" ∨
          ct = "image/vnd.microsoft.icon" then none
      else if IMAGE_MAX_BYTES < r.body.length then none
      else
        let ct2 := if ct = "image/jpg" then "image/jpeg" else ct
        let ct3 := if ct2 ∉ VISION_MEDIA_ALLOWLIST then "image/jpeg" else ct2
        some (r.body, ct3)

/-- C9 counterexample: a 200 response whose content-type `image/tiff` is
outside the jpeg/png/gif/webp allowlist is nevertheless accepted — its bytes
are returned and the media type is silently relabelled `image/jpeg` — so the
claim that any content-type outside the allowlist is not accepted is false. -/
theorem c9_counterexample :
    download_image (some ⟨200, "image/tiff", [1, 2, 3]⟩) =
      some ([1, 2, 3], "image/jpeg") ∧
    "image/tiff" ∉ VISION_MEDIA_ALLOWLIST := by decide

/-- C9 (amended): `download_image` returns bytes iff the status is 200, the
parsed content-type starts with `image/`, is not an svg/ico type, and the
body is at most 5 MB; whatever it returns carries exactly the response body
and a media type from the jpeg/png/gif/webp allowlist (non-allowlisted
`image/*` types are normalised to `image/jpeg`, not rejected); a failed
request yields `none` (dropped silently). -/
theorem c9_download_amended :
    (∀ r : HttpResp,
      ((∃ out, download_image (some r) = some out) ↔
        (r.status = 200 ∧
         pyStartsWith (parseContentType r.content_type) "image/" = true ∧
         parseContentType r.content_type ∉
           ["image/svg+xml", "image/x-icon", "image/vnd.microsoft.icon"] ∧
         r.body.length ≤ IMAGE_MAX_BYTES)) ∧
      (∀ bytes media, download_image (some r) = some (bytes, media) →
        bytes = r.body ∧ media ∈ VISION_MEDIA_ALLOWLIST)) ∧
    download_image none = none := by
  refine ⟨fun r => ⟨⟨?_, ?_⟩, ?_⟩, rfl⟩
  · rintro ⟨out, hout⟩
    simp only [download_image] at hout
    by_cases h1 : r.status ≠ 200
    · rw [if_pos h1] at hout; exact Option.noConfusion hout
    · rw [if_neg h1] at hout
      by_cases h2 : pyStartsWith (parseContentType r.content_type) "image/" = false
      · rw [if_pos h2] at hout; exact Option.noConfusion hout
      · rw [if_neg h2] at hout
        by_cases h3 : parseContentType r.content_type = "image/svg+xml" ∨
            parseContentType r.content_type = "image/x-icon" ∨
            parseContentType r.content_type = "image/vnd.microsoft.icon"
        · rw [if_pos h3] at hout; exact Option.noConfusion hout
        · rw [if_neg h3] at hout
          by_cases h4 : IMAGE_MAX_BYTES < r.body.length
          · rw [if_pos h4] at hout; exact Option.noConfusion hout
          · refine ⟨by omega, ?_, by simpa using h3, by omega⟩
            cases hb : pyStartsWith (parseContentType r.content_type) "image/" with
            | false => exact absurd hb h2
            | true => rfl
  · rintro ⟨h1, h2, h3, h4⟩
    simp only [download_image]
    rw [if_neg (by omega), if_neg (by simp [h2]),
      if_neg (by simpa using h3), if_neg (by omega)]
    exact ⟨_, rfl⟩
  · intro bytes media hout
    simp only [download_image] at hout
    by_cases h1 : r.status ≠ 200
    · rw [if_pos h1] at hout; exact Option.noConfusion hout
    · rw [if_neg h1] at hout
      by_cases h2 : pyStartsWith (parseContentType r.content_type) "image/" = false
      · rw [if_pos h2] at hout; exact Option.noConfusion hout
      · rw [if_neg h2] at hout
        by_cases h3 : parseContentType r.content_type = "image/svg+xml" ∨
            parseContentType r.content_type = "image/x-icon" ∨
            parseContentType r.content_type = "image/vnd.microsoft.icon"
        · rw [if_pos h3] at hout; exact Option.noConfusion hout
        · rw [if_neg h3] at hout
          by_cases h4 : IMAGE_MAX_BYTES < r.body.length
          · rw [if_pos h4] at hout; exact Option.noConfusion hout
          · rw [if_neg h4] at hout
            have hp := Option.some.inj hout
            simp only [Prod.mk.injEq] at hp
            obtain ⟨hb, hm⟩ := hp
            refine ⟨hb.symm, ?_⟩
            rw [← hm]
            split_ifs with h5 h6 h7 <;>
              first
                | decide
                | exact not_not.mp h6
                | exact not_not.mp h7
                | exact h6
                | exact h7

/-- C9 witness: the amended theorem applied to a concrete 200 png response
and to a failed request. -/
theorem c9_witness :
    (∃ out, download_image (some ⟨200, "image/png", [7]⟩) = some out) ∧
    download_image none = none :=
  ⟨(c9_download_amended.1 ⟨200, "image/png", [7]⟩).1.mpr
      ⟨rfl, by decide, by decide, by decide⟩,
   c9_download_amended.2⟩

/-! ## URL helpers (crawler/03_verify_backflow.py, lines 161-197)

`urllib.parse.urlparse` is modelled for the shapes the pipeline handles:
absolute `scheme://netloc/path?query#fragment` URLs and scheme-less strings
(which urlparse treats as pure paths). -/

/-- `urlparse(url).netloc` for the modelled URL shapes. -/
def urlNetloc (url : String) : String :=
  let noFrag := url.data.takeWhile (fun c => c ≠ '#')
  match breakOnSub "://".data noFrag with
  | some (_, rest) =>
    String.mk ((rest.takeWhile (fun c => c ≠ '/')).takeWhile (fun c => c ≠ '?'))
  | none => ""

/-- `urlparse(url).path` for the modelled URL shapes. -/
def urlPath (url : String) : String :=
  let noQuery := (url.data.takeWhile (fun c => c ≠ '#')).takeWhile (fun c => c ≠ '?')
  match breakOnSub "://".data noQuery with
  | some (_, rest) => String.mk (rest.dropWhile (fun c => c ≠ '/'))
  | none => String.mk noQuery

/-- `extract_domain`: lower-cased netloc with a leading `www.` stripped
(the exception branch of the source is unreachable in the model, and the
`None` result is represented by the falsy empty string). -/
def extract_domain (url : String) : String :=
  let domain := pyLower (urlNetloc url)
  if pyStartsWith domain "www." = true then String.mk (domain.data.drop 4)
  else domain

/-- `is_same_domain`: Python `d1 and d2 and d1 == d2` in boolean position. -/
def is_same_domain (url1 url2 : String) : Bool :=
  let d1 := extract_domain url1
  let d2 := extract_domain url2
  (d1 != "") && (d2 != "") && (d1 == d2)

/-- Python `s.rstrip("/")`. -/
def rstripSlash (s : String) : String :=
  String.mk ((s.data.reverse.dropWhile (fun c => c = '/')).reverse)

/-- The directory part of a path: up to and including the last slash
(`/` when the path has none). -/
def dirOf (p : String) : String :=
  let r := p.data.reverse.dropWhile (fun c => c ≠ '/')
  if r.isEmpty then "/" else String.mk r.reverse

/-- `urllib.parse.urljoin` for the href shapes the pipeline meets: absolute
URLs, scheme-relative `//...`, host-relative `/...` and relative paths. -/
def urljoin (base href : String) : String :=
  if href = "" then base
  else if (breakOnSub "://".data href.data).isSome then href
  else if pyStartsWith href "//" = true then
    String.mk (base.data.takeWhile (fun c => c ≠ ':')) ++ ":" ++ href
  else if pyStartsWith href "/" = true then
    String.mk (base.data.takeWhile (fun c => c ≠ ':')) ++ "://" ++
      urlNetloc base ++ href
  else
    String.mk (base.data.takeWhile (fun c => c ≠ ':')) ++ "://" ++
      urlNetloc base ++ dirOf (urlPath base) ++ href

/-! ## C5: internal-link ranking (crawler/03_verify_backflow.py, lines 227-281
and 392-427) -/

/-- `SERVICE_PAGE_INDICATORS` (lines 124-128), a Python set whose iteration
order does not affect the additive relevance score. -/
def SERVICE_PAGE_INDICATORS : List String :=
  ["backflow", "rpz", "cross", "service", "services",
   "plumbing", "testing", "preventer", "irrigation",
   "sprinkler", "prevention", "repair", "installation"]

/-- The relevance loop of `extract_internal_links`: +2 per indicator found in
the lower-cased FULL absolute URL, +1 per indicator found in the (lower-cased)
anchor text. -/
def linkRelevance (url_lower anchor : String) : Nat :=
  SERVICE_PAGE_INDICATORS.foldl
    (fun s ind =>
      let s2 := if pyIn ind url_lower = true then s + 2 else s
      if pyIn ind anchor = true then s2 + 1 else s2) 0

/-- The per-anchor-tag body of `extract_internal_links`: absolutise the href,
keep only same-domain links distinct from the base URL, score them, keep only
positive scores.  The BeautifulSoup extraction of the `(href, anchor-text)`
pairs from HTML is the input list. -/
def linkCandidate (base_url : String) (t : String × String) :
    Option (String × String × Nat) :=
  let anchor := pyLower t.2
  let abs_url := urljoin base_url t.1
  if is_same_domain base_url abs_url = true then
    if rstripSlash abs_url = rstripSlash base_url then none
    else
      let relevance := linkRelevance (pyLower abs_url) anchor
      if 0 < relevance then some (abs_url, anchor, relevance) else none
  else none

/-- Stable descending order on the scored triples: `links.sort(key=lambda x:
x[2], reverse=True)` is a stable sort, which `List.insertionSort` with this
relation reproduces exactly. -/
def relDesc (a b : String × String × Nat) : Prop := b.2.2 ≤ a.2.2

instance relDesc_decidable : DecidableRel relDesc :=
  fun a b => inferInstanceAs (Decidable (b.2.2 ≤ a.2.2))

instance relDesc_total : IsTotal (String × String × Nat) relDesc :=
  ⟨fun a b => Nat.le_total b.2.2 a.2.2⟩

instance relDesc_trans : IsTrans (String × String × Nat) relDesc :=
  ⟨fun _ _ _ hab hbc => Nat.le_trans hbc hab⟩

/-- `extract_internal_links`: score the candidates, sort by relevance
(stable, descending) and return the top `max_links` as (url, anchor) pairs. -/
def extract_internal_links (base_url : String) (atags : List (String × String))
    (max_links : Nat) : List (String × String) :=
  let links := atags.filterMap (linkCandidate base_url)
  ((links.insertionSort relDesc).take max_links).map (fun t => (t.1, t.2.1))

/-- Follows the claim words (refinement model): identical to the source
pipeline except that the +2 indicator bonus is computed over the lower-cased
URL PATH only, as the spec sentence states, instead of the full URL. -/
def linkCandidate_specRanking (base_url : String) (t : String × String) :
    Option (String × String × Nat) :=
  let anchor := pyLower t.2
  let abs_url := urljoin base_url t.1
  if is_same_domain base_url abs_url = true then
    if rstripSlash abs_url = rstripSlash base_url then none
    else
      let relevance := linkRelevance (pyLower (urlPath abs_url)) anchor
      if 0 < relevance then some (abs_url, anchor, relevance) else none
  else none

/-- Follows the claim words (refinement model): ranking by the path-based
relevance of `linkCandidate_specRanking`. -/
def extract_internal_links_specRanking (base_url : String)
    (atags : List (String × String)) (max_links : Nat) :
    List (String × String) :=
  let links := atags.filterMap (linkCandidate_specRanking base_url)
  ((links.insertionSort relDesc).take max_links).map (fun t => (t.1, t.2.1))

/-- C5 counterexample: the code scores indicators over the FULL lower-cased
URL (query string included), not the URL path.  With a two-link page and a
one-link budget, the code crawls the link whose indicators sit in the query
string, while the claimed path-based ranking would crawl the other link. -/
theorem c5_counterexample :
    extract_internal_links "https://example.com"
        [("https://example.com/page?x=services", "alpha"),
         ("https://example.com/testing", "beta")] 1 =
      [("https://example.com/page?x=services", "alpha")] ∧
    extract_internal_links_specRanking "https://example.com"
        [("https://example.com/page?x=services", "alpha"),
         ("https://example.com/testing", "beta")] 1 =
      [("https://example.com/testing", "beta")] ∧
    ("https://example.com/page?x=services", "alpha") ≠
      ("https://example.com/testing", ("beta" : String)) := by
  refine ⟨by decide, by decide, by decide⟩

/-- The internal-page loop of `verify_website` (lines 402-427): crawl each
ranked link in order; a failed fetch is skipped; after a successful fetch the
best score is updated and the loop breaks once it reaches twice the
verification threshold.  Returns the urls crawled, in crawl order. -/
def pass2_crawl_order (fetch : String → Option String) (threshold : Nat) :
    List (String × String) → Nat → List String
  | [], _ => []
  | (url, _) :: rest, best =>
    url ::
      (match fetch url with
       | none => pass2_crawl_order fetch threshold rest best
       | some text =>
         let best2 := max best (score_text text).1
         if threshold * 2 ≤ best2 then []
         else pass2_crawl_order fetch threshold rest best2)

theorem pass2_crawl_order_isPre (fetch : String → Option String)
    (threshold : Nat) :
    ∀ (links : List (String × String)) (best : Nat),
      pass2_crawl_order fetch threshold links best <+: links.map Prod.fst := by
  intro links
  induction links with
  | nil => intro best; simp [pass2_crawl_order]
  | cons p rest ih =>
    intro best
    obtain ⟨url, anchor⟩ := p
    show (url ::
      (match fetch url with
       | none => pass2_crawl_order fetch threshold rest best
       | some text =>
         let best2 := max best (score_text text).1
         if threshold * 2 ≤ best2 then []
         else pass2_crawl_order fetch threshold rest best2)) <+:
      url :: rest.map Prod.fst
    rw [List.cons_prefix_cons]
    refine ⟨rfl, ?_⟩
    cases fetch url with
    | none => exact ih best
    | some text =>
      by_cases hb : threshold * 2 ≤ max best (score_text text).1
      · simpa [hb] using List.nil_prefix _
      · simpa [hb] using ih (max best (score_text text).1)

theorem linkCandidate_score (base : String) (atags : List (String × String)) :
    ∀ c ∈ atags.filterMap (linkCandidate base),
      c.2.2 = linkRelevance (pyLower c.1) c.2.1 ∧ 0 < c.2.2 := by
  intro c hc
  obtain ⟨t, _, he⟩ := List.mem_filterMap.mp hc
  simp only [linkCandidate] at he
  split_ifs at he with h1 h2 h3 <;>
    first
      | exact Option.noConfusion he
      | (obtain rfl := Option.some.inj he; exact ⟨rfl, h3⟩)

/-- C5 (amended): the verifier ranks same-domain candidate links by +2 per
indicator found in the lower-cased FULL absolute URL (not the URL path alone)
plus +1 per indicator found in the anchor text, keeps only positive scores,
takes the top `max_links = max_pages - 1` in stable descending score order,
and the second crawl pass visits a prefix of that ranked list in order:
the output has at most `k` links; each output link is a positive-score
candidate; output scores are descending; any candidate missing from a
non-full output scores no more than every output link; and the crawled urls
are a prefix of the ranked urls. -/
theorem c5_link_ranking_amended (base : String)
    (atags : List (String × String)) (k : Nat) :
    (extract_internal_links base atags k).length ≤ k ∧
    (∀ pa ∈ extract_internal_links base atags k,
      (pa.1, pa.2, linkRelevance (pyLower pa.1) pa.2) ∈
        atags.filterMap (linkCandidate base) ∧
      0 < linkRelevance (pyLower pa.1) pa.2) ∧
    (extract_internal_links base atags k).Pairwise
      (fun a b => linkRelevance (pyLower b.1) b.2 ≤
        linkRelevance (pyLower a.1) a.2) ∧
    (∀ c ∈ atags.filterMap (linkCandidate base),
      (c.1, c.2.1) ∉ extract_internal_links base atags k →
      (extract_internal_links base atags k).length = k ∧
      ∀ pa ∈ extract_internal_links base atags k,
        c.2.2 ≤ linkRelevance (pyLower pa.1) pa.2) ∧
    (∀ fetch : String → Option String, ∀ threshold best : Nat,
      pass2_crawl_order fetch threshold (extract_internal_links base atags k)
          best <+:
        (extract_internal_links base atags k).map Prod.fst) := by
  have hperm := List.perm_insertionSort relDesc (atags.filterMap (linkCandidate base))
  have hsorted := List.sorted_insertionSort relDesc (atags.filterMap (linkCandidate base))
  have hscore : ∀ c ∈ (atags.filterMap (linkCandidate base)).insertionSort relDesc,
      c.2.2 = linkRelevance (pyLower c.1) c.2.1 ∧ 0 < c.2.2 :=
    fun c hc => linkCandidate_score base atags c (hperm.subset hc)
  have hout : extract_internal_links base atags k =
      (((atags.filterMap (linkCandidate base)).insertionSort relDesc).take k).map
        (fun t => (t.1, t.2.1)) := rfl
  refine ⟨?_, ?_, ?_, ?_, fun fetch threshold best =>
    pass2_crawl_order_isPre fetch threshold _ best⟩
  · rw [hout, List.length_map]
    exact List.length_take_le k _
  · intro pa hpa
    rw [hout] at hpa
    obtain ⟨c, hc, rfl⟩ := List.mem_map.mp hpa
    have hcS := (List.take_subset k _) hc
    obtain ⟨hsc, hpos⟩ := hscore c hcS
    constructor
    · rw [show ((c.1, c.2.1).1, (c.1, c.2.1).2,
        linkRelevance (pyLower (c.1, c.2.1).1) (c.1, c.2.1).2) =
          (c.1, c.2.1, c.2.2) by simp [hsc]]
      exact hperm.subset hcS
    · simpa [← hsc] using hpos
  · rw [hout]
    rw [List.pairwise_map]
    have hpw : (((atags.filterMap (linkCandidate base)).insertionSort
        relDesc).take k).Pairwise relDesc :=
      hsorted.sublist (List.take_sublist k _)
    refine hpw.imp_of_mem ?_
    intro a b ha hb hab
    have hsa := (hscore a ((List.take_subset k _) ha)).1
    have hsb := (hscore b ((List.take_subset k _) hb)).1
    simpa [← hsa, ← hsb] using hab
  · intro c hcL hnot
    have hcS : c ∈ (atags.filterMap (linkCandidate base)).insertionSort relDesc :=
      hperm.mem_iff.mpr hcL
    have hsplit := List.take_append_drop k
      ((atags.filterMap (linkCandidate base)).insertionSort relDesc)
    have hcdrop : c ∈ ((atags.filterMap (linkCandidate base)).insertionSort
        relDesc).drop k := by
      rcases (List.mem_append.mp (by rw [hsplit]; exact hcS)) with h | h
      · exact absurd (List.mem_map_of_mem (fun t => (t.1, t.2.1)) h)
          (by rw [hout] at hnot; exact hnot)
      · exact h
    have hklt : k < ((atags.filterMap (linkCandidate base)).insertionSort
        relDesc).length := by
      by_contra hge
      rw [List.drop_eq_nil_of_le (by omega)] at hcdrop
      cases hcdrop
    have hcross := (List.pairwise_append.mp (by rw [hsplit]; exact hsorted)).2.2
    constructor
    · rw [hout, List.length_map, List.length_take]
      omega
    · intro pa hpa
      rw [hout] at hpa
      obtain ⟨a, ha, rfl⟩ := List.mem_map.mp hpa
      have hrel := hcross a ha c hcdrop
      have hsa := (hscore a ((List.take_subset k _) ha)).1
      simpa [relDesc, ← hsa] using hrel

/-- C5 witness: the amended theorem applied to the concrete two-link page of
the counterexample setting with budget 1. -/
theorem c5_witness :
    (extract_internal_links "https://example.com"
      [("https://example.com/page?x=services", "alpha"),
       ("https://example.com/testing", "beta")] 1).length ≤ 1 ∧
    (("https://example.com/testing", "beta",
        linkRelevance (pyLower "https://example.com/testing") "beta") ∈
      [("https://example.com/page?x=services", "alpha"),
       ("https://example.com/testing", "beta")].filterMap
        (linkCandidate "https://example.com") →
      ("https://example.com/testing", "beta") ∉
        extract_internal_links "https://example.com"
          [("https://example.com/page?x=services", "alpha"),
           ("https://example.com/testing", "beta")] 1 →
      (extract_internal_links "https://example.com"
        [("https://example.com/page?x=services", "alpha"),
         ("https://example.com/testing", "beta")] 1).length = 1) := by
  have h := c5_link_ranking_amended "https://example.com"
    [("https://example.com/page?x=services", "alpha"),
     ("https://example.com/testing", "beta")] 1
  exact ⟨h.1, fun hmem hnot => (h.2.2.2.1 _ hmem hnot).1⟩

/-! ## C10: the URL-dimension heuristic (crawler/05_enrich_images.py,
lines 84-190)

`DIM_RE = (?:^|[-_x])(\\d{2,4})(?:[-_x])(\\d{2,4})(?:$|[-_.])` with
`re.IGNORECASE`, searched over `Path(urlparse(url).path).stem`.  The matcher
below reproduces `re.search` for this fixed pattern: leftmost match wins; at
one position the `^` alternative is tried before the separator-consuming one
and the greedy `{2,4}` counters backtrack from 4 down to 2. -/

def isDimSep (c : Char) : Bool := c = '-' || c = '_' || c = 'x' || c = 'X'

def isDimEnd (c : Char) : Bool := c = '-' || c = '_' || c = '.'

/-- Take exactly `k` leading digits, returning them and the rest. -/
def takeDigits : Nat → List Char → Option (List Char × List Char)
  | 0, s => some ([], s)
  | _ + 1, [] => none
  | k + 1, c :: t =>
    if c.isDigit then (takeDigits k t).map (fun p => (c :: p.1, p.2)) else none

def digitsVal (ds : List Char) : Nat :=
  ds.foldl (fun n c => n * 10 + (c.toNat - 48)) 0

/-- One backtracking attempt of the pattern body with fixed group widths
`k1`, `k2`. -/
def dimBodyWith (k1 k2 : Nat) (s : List Char) : Option (Nat × Nat) :=
  match takeDigits k1 s with
  | none => none
  | some (d1, r1) =>
    match r1 with
    | [] => none
    | c :: r2 =>
      if isDimSep c then
        match takeDigits k2 r2 with
        | none => none
        | some (d2, r3) =>
          match r3 with
          | [] => some (digitsVal d1, digitsVal d2)
          | e :: _ =>
            if isDimEnd e then some (digitsVal d1, digitsVal d2) else none
      else none

/-- The pattern body at one position, trying the greedy widths in the order
the regex engine does: 4-4, 4-3, 4-2, 3-4, ..., 2-2. -/
def dimBody (s : List Char) : Option (Nat × Nat) :=
  (dimBodyWith 4 4 s).orElse fun _ => (dimBodyWith 4 3 s).orElse fun _ =>
  (dimBodyWith 4 2 s).orElse fun _ => (dimBodyWith 3 4 s).orElse fun _ =>
  (dimBodyWith 3 3 s).orElse fun _ => (dimBodyWith 3 2 s).orElse fun _ =>
  (dimBodyWith 2 4 s).orElse fun _ => (dimBodyWith 2 3 s).orElse fun _ =>
  dimBodyWith 2 2 s

def dimSearchGo : List Char → Option (Nat × Nat)
  | [] => none
  | c :: rest =>
    if isDimSep c then
      match dimBody rest with
      | some r => some r
      | none => dimSearchGo rest
    else dimSearchGo rest

/-- `DIM_RE.search(s)`: the `^` alternative at position 0 first, then the
separator-prefixed alternative at each later position, left to right. -/
def dimSearch (s : List Char) : Option (Nat × Nat) :=
  match dimBody s with
  | some r => some r
  | none => dimSearchGo s

/-- `pathlib.PurePath(p).name`: the last non-empty, non-dot component. -/
def pathName (p : String) : String :=
  String.mk ((((splitChar '/' p.data).filter
    (fun c => c ≠ [] && c ≠ ['.'])).getLastD []))

/-- `pathlib.PurePath(p).stem`: the name with its suffix removed; a suffix
exists when the last dot is neither the first nor the last character. -/
def pathStem (p : String) : String :=
  let name := (pathName p).data
  match name.reverse.findIdx? (fun c => c = '.') with
  | none => String.mk name
  | some j =>
    let i := name.length - 1 - j
    if 0 < i ∧ j ≠ 0 then String.mk (name.take i) else String.mk name

/-- `pathlib.PurePath(p).suffix`. -/
def pathSuffix (p : String) : String :=
  let name := (pathName p).data
  match name.reverse.findIdx? (fun c => c = '.') with
  | none => ""
  | some j =>
    let i := name.length - 1 - j
    if 0 < i ∧ j ≠ 0 then String.mk (name.drop i) else ""

/-- `_dim_too_small` (lines 162-170): reject only when both parsed
dimensions are below 200. -/
def _dim_too_small (url : String) : Bool :=
  match dimSearch (pathStem (urlPath url)).data with
  | some (w, h) => if w < 200 ∧ h < 200 then true else false
  | none => false

/-- The plain-substring alternatives of `JUNK_URL_RE` (lines 84-94); the
`\\bads?\\b` alternative is handled separately. -/
def JUNK_URL_TOKENS : List String :=
  ["logo", "favicon", "icon", "sprite", "badge", "social", "payment", "map",
   "avatar", "placeholder", "loading", "spinner", "arrow", "bullet",
   "star-rating", "flag", "1x1", "pixel", "tracking", "analytics", "banner",
   "facebook", "twitter", "instagram", "youtube", "linkedin", "pinterest",
   "yelp", "tiktok", "background", "bg-", "bg_", "pattern", "texture",
   "separator", "divider", "header-", "header_", "footer-", "footer_",
   "nav-", "nav_", "menu-", "menu_", "sidebar-", "sidebar_"]

def isWordChar (c : Char) : Bool := c.isAlphanum || c = '_'

def wordEdge : List Char → Bool
  | [] => true
  | c :: _ => !(isWordChar c)

/-- Does `ad` or `ads` match right here (after an `a`), with a word boundary
after it? -/
def adsHereMatch : List Char → Bool
  | 'd' :: r2 =>
    match r2 with
    | 's' :: r3 => wordEdge r3
    | _ => wordEdge r2
  | _ => false

/-- Does `\\bads?\\b` match anywhere?  `prev` records whether the previous
character is a word character. -/
def adsScan (prev : Bool) : List Char → Bool
  | [] => false
  | c :: rest =>
    (decide (c = 'a') && !prev && adsHereMatch rest) ||
      adsScan (isWordChar c) rest

/-- `JUNK_URL_RE.search(s)` as a boolean (the source only tests truthiness):
some alternative occurs somewhere in `s`. -/
def junkReSearch (s : String) : Bool :=
  JUNK_URL_TOKENS.any (fun tok => pyIn tok s) || adsScan false s.data

def JUNK_EXTENSIONS : List String := [".svg", ".ico", ".gif", ".bmp", ".tiff"]

/-- `is_junk_url` (lines 173-190). -/
def is_junk_url (url : String) : Bool :=
  if url = "" || pyStartsWith url "data:" then true
  else if (pyLower (pathSuffix (urlPath url))) ∈ JUNK_EXTENSIONS then true
  else if junkReSearch (pyLower url) then true
  else if _dim_too_small url then true
  else false

/-- Follows the claim words (refinement model): the filename stem "embeds a
WxH dimension hint" with values `w`, `h` — a decomposition matching the
shape of `DIM_RE` somewhere in the stem. -/
def EmbedsDimHint (stem : List Char) (w h : Nat) : Prop :=
  ∃ pre d1 sep d2 post,
    stem = pre ++ d1 ++ sep :: d2 ++ post ∧
    (pre = [] ∨ ∃ c, pre.getLast? = some c ∧ isDimSep c = true) ∧
    2 ≤ d1.length ∧ d1.length ≤ 4 ∧ d1.all Char.isDigit = true ∧
    isDimSep sep = true ∧
    2 ≤ d2.length ∧ d2.length ≤ 4 ∧ d2.all Char.isDigit = true ∧
    (post = [] ∨ ∃ c, post.head? = some c ∧ isDimEnd c = true) ∧
    w = digitsVal d1 ∧ h = digitsVal d2

/-- C10 counterexample: `photo-50x50-300x900.jpg` embeds the hint 300x900
with a dimension at least 200, yet `_dim_too_small` is true (the regex search
finds the leftmost hint 50x50 first) and `is_junk_url` rejects the URL on
size alone (no other junk rule fires). -/
theorem c10_counterexample :
    EmbedsDimHint
      (pathStem (urlPath "https://example.com/photo-50x50-300x900.jpg")).data
      300 900 ∧
    (200 ≤ 300 ∨ 200 ≤ 900) ∧
    _dim_too_small "https://example.com/photo-50x50-300x900.jpg" = true ∧
    is_junk_url "https://example.com/photo-50x50-300x900.jpg" = true ∧
    junkReSearch (pyLower "https://example.com/photo-50x50-300x900.jpg")
      = false := by
  refine ⟨?_, by decide, by decide, by decide, by decide⟩
  refine ⟨"photo-50x50-".data, "300".data, 'x', "900".data, [],
    by decide, ?_, by decide, by decide, by decide, by decide,
    by decide, by decide, by decide, ?_, by decide, by decide⟩
  · exact Or.inr ⟨'-', by decide, by decide⟩
  · exact Or.inl rfl

/-- C10 (amended): when the regex search over the filename stem parses a
dimension hint `(w, h)` with at least one dimension at least 200 pixels,
`_dim_too_small` is false and `is_junk_url` can reject the URL only for a
non-dimension reason (data URI, junk extension, or a junk-pattern match);
the claim fails only when an additional, earlier all-small hint occurs in
the same filename, as in the counterexample. -/
theorem c10_dim_amended (url : String) (w h : Nat)
    (hm : dimSearch (pathStem (urlPath url)).data = some (w, h))
    (hbig : 200 ≤ w ∨ 200 ≤ h) :
    _dim_too_small url = false ∧
    (is_junk_url url = true →
      (url = "" ∨ pyStartsWith url "data:" = true) ∨
      (pyLower (pathSuffix (urlPath url))) ∈ JUNK_EXTENSIONS ∨
      junkReSearch (pyLower url) = true) := by
  have hdim : _dim_too_small url = false := by
    unfold _dim_too_small
    rw [hm]
    show (if w < 200 ∧ h < 200 then true else false) = false
    rw [if_neg (by omega)]
  refine ⟨hdim, ?_⟩
  intro hj
  unfold is_junk_url at hj
  by_cases h1 : (url = "" || pyStartsWith url "data:") = true
  · exact Or.inl (by simpa using h1)
  · rw [if_neg h1] at hj
    by_cases h2 : (pyLower (pathSuffix (urlPath url))) ∈ JUNK_EXTENSIONS
    · exact Or.inr (Or.inl h2)
    · rw [if_neg h2] at hj
      by_cases h3 : junkReSearch (pyLower url) = true
      · exact Or.inr (Or.inr h3)
      · rw [if_neg h3, hdim] at hj
        cases hj

/-- C10 witness: the amended theorem applied to the concrete URL
`photo-100x900.jpg`, whose single hint has height 900. -/
theorem c10_witness :
    _dim_too_small "https://example.com/photo-100x900.jpg" = false :=
  (c10_dim_amended "https://example.com/photo-100x900.jpg" 100 900
    (by decide) (Or.inr (by decide))).1

end Backflow
